import Mathlib

/-!
Verification of the data-reader reconciliation engine of `pytech`
(`src/pytech/data/reader.py`), shallowly embedded in Lean 4.

Modelling conventions:

* Calendar dates are `Nat` day numbers with day 0 a Monday
  (concretely: day 0 = Monday 2009-12-28, so day 4 = Friday 2010-01-01,
  day 4802 = Monday 2023-02-20).  `pandas` timestamps in the source are
  day-granular for everything the reader inspects (`.date()` comparisons,
  `BDay` arithmetic), so `Nat` days suffice.
* A `pandas.DataFrame` of price bars is a `DataFrame`: a column-name list
  plus date-indexed rows of cells.  Cell payloads are `Cell` (a number, a
  string, or the missing-value marker `NaN`); the claims under check only
  ever distinguish "the NaN marker" from "anything else", so numeric cells
  carry `Int`.
* The external world is explicit: `Remote` maps a ticker to the provider's
  response behaviour (`pandas_datareader`), and the arctic library instance
  `self.lib` is a `Cache` mapping tickers to stored series (or to a
  corrupt-key fault, the `KeyError` the source works around).  Both are
  threaded as plain values; mutation of the store is explicit state passing
  through `St`, which also keeps a log of the remote calls made so that
  "no network call occurred" is expressible.
* Repository code that is not under `src/` (`pytech.utils`,
  `pytech.data._holders.ReaderResult`, the `write_chunks` decorator) is
  modelled from the spec; each such definition says so in its doc comment.
-/

/-- One cell of a price-bar data frame: the missing-value marker (`np.nan`),
a numeric payload, or a string payload (the ticker tag column). -/
inductive Cell where
  | nan : Cell
  | num (v : Int) : Cell
  | str (s : String) : Cell
deriving DecidableEq, Repr

/-- One row of a price series: its date (the index key) and its cells,
positionally aligned with the frame's column list. -/
structure Row where
  date : Nat
  cells : List Cell
deriving DecidableEq, Repr

/-- A `pandas.DataFrame` of bars: column names plus date-indexed rows. -/
structure DataFrame where
  cols : List String
  rows : List Row
deriving DecidableEq, Repr

/-- The date index of a frame, in row order. -/
def datesOf (df : DataFrame) : List Nat := df.rows.map Row.date

/-- `df.empty` in pandas: the frame has no rows. -/
def DataFrame.empty (df : DataFrame) : Bool := df.rows.isEmpty

/-- Modelled from the spec: `utils.is_trade_day` (the `pytech.utils` module is
not under `src/`).  Spec 4.1: "excludes weekends".  With day 0 a Monday the
trading days are the residues 0..4 mod 7. -/
def is_trade_day (d : Nat) : Bool := d % 7 < 5

/-- `pandas.tseries.offsets.BDay()` subtraction, `ts - BDay()`: the previous
business day (Tue..Sat map to the preceding day, Sun and Mon roll back to
Friday).  Meaningful for `d ≥ 3`, which every theorem below respects. -/
def prev_bday (d : Nat) : Nat :=
  if (d - 1) % 7 < 5 then d - 1
  else if (d - 2) % 7 < 5 then d - 2
  else d - 3

deriving instance DecidableEq for Except

/-- The exceptions the reader raises or catches: `DataAccessError` (from
`exceptions`, carrying its message) and the spec's `InvalidRangeError` from
date sanitization. -/
inductive Exc where
  | dataAccessError (msg : String) : Exc
  | invalidRangeError : Exc
deriving DecidableEq, Repr

/-- Modelled from the spec: `utils.sanitize_dates` (P1).  An unset start
defaults to the fixed baseline 2010-01-01 (day 4), an unset end defaults to
"today" (passed explicitly here); start after end is `InvalidRangeError`. -/
def baseline_date : Nat := 4

/-- Modelled from the spec: `utils.sanitize_dates`, see `baseline_date`. -/
def sanitize_dates (today : Nat) (s0 e0 : Option Nat) : Except Exc (Nat × Nat) :=
  let s := s0.getD baseline_date
  let e := e0.getD today
  if e < s then .error .invalidRangeError else .ok (s, e)

/-- Modelled from the spec: `pytech.data._holders.ReaderResult` (not under
`src/`), the spec's `FetchResult`: a per-ticker outcome tagging success or
failure, carrying the library name, the ticker, and the frame on success.
The source constructs it as `ReaderResult(lib_name, ticker, df)` for success
and `ReaderResult(lib_name, ticker, successful=False)` for failure (then
`df` is absent, here `none`). -/
structure ReaderResult where
  lib_name : String
  ticker : String
  df : Option DataFrame
  successful : Bool
deriving DecidableEq, Repr

/-- Behaviour of the external provider for one ticker: either a full history
frame (calls return its restriction to the requested range) or a
provider/network fault (`RemoteDataError`). -/
inductive RemoteEntry where
  | avail (df : DataFrame) : RemoteEntry
  | err : RemoteEntry
deriving DecidableEq, Repr

/-- The external market-data world, keyed by ticker.  A ticker absent from
the list is one the provider knows nothing about. -/
abbrev Remote := List (String × RemoteEntry)

/-- One arctic library entry for a ticker: a stored series, or a corrupt
entry whose lookup raises `KeyError` (the arctic fault the source catches at
`reader.py:242-245`). -/
inductive CacheEntry where
  | stored (df : DataFrame) : CacheEntry
  | corrupt : CacheEntry
deriving DecidableEq, Repr

/-- The arctic library `self.lib`, keyed by ticker symbol. -/
abbrev Cache := List (String × CacheEntry)

/-- The mutable world threaded through the reader: the cache library, plus a
log of the remote calls made (ticker, source, start, end) — the log is a
pure observer used to state "no network call occurred". -/
structure St where
  cache : Cache
  web_log : List (String × String × Nat × Nat)
deriving DecidableEq, Repr

/-- Python `dict` lookup on an insertion-ordered association list. -/
def dict_get {β : Type} (m : List (String × β)) (k : String) : Option β :=
  (m.find? (fun p => p.1 == k)).map Prod.snd

/-- Python `dict` assignment `m[k] = v`: overwrite in place if the key
exists, else append. -/
def dict_insert {β : Type} (m : List (String × β)) (k : String) (v : β) :
    List (String × β) :=
  if m.any (fun p => p.1 == k) then
    m.map (fun p => if p.1 == k then (k, v) else p)
  else m ++ [(k, v)]

/-- Range restriction of a frame to the inclusive date range `[s, e]`: what
arctic's `chunk_range` read and the provider's `[start, end]` query both
perform. -/
def restrict_rows (df : DataFrame) (s e : Nat) : DataFrame :=
  { df with rows := df.rows.filter (fun r => s ≤ r.date && r.date ≤ e) }

/-- Modelled from the spec: `utils.rename_bar_cols` (not under `src/`).
Spec 4.2: "normalizes column names to a canonical schema"; provider-style
capitalized names are mapped to the canonical lower-case bar schema. -/
def canon_col (c : String) : String :=
  if c == "Open" then "open"
  else if c == "High" then "high"
  else if c == "Low" then "low"
  else if c == "Close" then "close"
  else if c == "Volume" then "volume"
  else c

/-- Modelled from the spec: `utils.rename_bar_cols`, see `canon_col`. -/
def rename_bar_cols (df : DataFrame) : DataFrame :=
  { df with cols := df.cols.map canon_col }

/-- `utils.TICKER_COL`, the canonical ticker column name. -/
def ticker_col : String := "ticker"

/-- `df[utils.TICKER_COL] = ticker` at `reader.py:207`: attach the ticker
tag column (provider frames carry only the OHLCV schema, so this is an
append).  The subsequent `set_index`/`index.name` normalization at
`reader.py:209-213` only adjusts pandas index metadata, which this
embedding's date-indexed rows already carry, and is a no-op here. -/
def set_ticker_col (t : String) (df : DataFrame) : DataFrame :=
  { cols := df.cols ++ [ticker_col],
    rows := df.rows.map (fun r => { r with cells := r.cells ++ [Cell.str t] }) }

/-- External boundary: `pdr.DataReader(ticker, source, start, end)`.  An
unknown ticker or a provider fault raises `RemoteDataError` (`none` here);
otherwise the provider returns its history restricted to the inclusive
range. -/
def data_reader (remote : Remote) (t : String) (s e : Nat) : Option DataFrame :=
  match dict_get remote t with
  | none => none
  | some RemoteEntry.err => none
  | some (RemoteEntry.avail df) => some (restrict_rows df s e)

/-- `df.index.min()` — smallest date of a (nonempty) frame. -/
def min_date (df : DataFrame) : Nat :=
  match datesOf df with
  | [] => 0
  | d :: ds => ds.foldl Nat.min d

/-- `df.index.max()` — largest date of a (nonempty) frame. -/
def max_date (df : DataFrame) : Nat :=
  match datesOf df with
  | [] => 0
  | d :: ds => ds.foldl Nat.max d

/-- Modelled from the spec: the store-side effect of the `write_chunks`
decorator (from `pytech.decorators`, not under `src/`).  Spec 4.3:
`write(ticker, series)` "appends/stores a series for later reads ...
required by the Reconciler after a successful remote fetch"; the module
docstring of `reader.py` likewise says responses are written to the
database to be accessed later.  New rows supersede stored rows carrying the
same date. -/
def chunk_update (old new : DataFrame) : DataFrame :=
  { cols := old.cols,
    rows := old.rows.filter (fun r => !((datesOf new).contains r.date)) ++ new.rows }

/-- Modelled from the spec: the cache write performed by `write_chunks`
after a successful fetch, see `chunk_update`. -/
def write_chunks (c : Cache) (t : String) (df : DataFrame) : Cache :=
  match dict_get c t with
  | some (CacheEntry.stored old) => dict_insert c t (CacheEntry.stored (chunk_update old df))
  | _ => dict_insert c t (CacheEntry.stored df)

/-- `BarReader._from_web` (`reader.py:184-215`), with its `@write_chunks()`
decorator.  The provider is called once (logged); an empty frame or a
`RemoteDataError` yields `ReaderResult(lib_name, ticker, successful=False)`;
on success the frame is normalized (`rename_bar_cols`, ticker column,
index metadata) and — via the decorator — written to the cache library. -/
def from_web (remote : Remote) (lib_name t source : String) (s e : Nat)
    (st : St) : ReaderResult × St :=
  let st1 : St := { st with web_log := st.web_log ++ [(t, source, s, e)] }
  match data_reader remote t s e with
  | none => (⟨lib_name, t, none, false⟩, st1)
  | some raw =>
    if raw.empty then (⟨lib_name, t, none, false⟩, st1)
    else
      let df := set_ticker_col t (rename_bar_cols raw)
      (⟨lib_name, t, some df, true⟩, { st1 with cache := write_chunks st1.cache t df })

/-- `_concat_dfs` (`reader.py:285-305`): concatenate the original frame with
whichever backfill frames exist, in the order `[df, upper, lower]` when both
exist.  `pd.concat` keeps row order and performs no deduplication; the
frames share the canonical schema, so the column list is the original's. -/
def concat_dfs (lower_df upper_df : Option DataFrame) (df : DataFrame) : DataFrame :=
  match lower_df, upper_df with
  | none, none => df
  | some l, none => { cols := df.cols, rows := df.rows ++ l.rows }
  | none, some u => { cols := df.cols, rows := df.rows ++ u.rows }
  | some l, some u => { cols := df.cols, rows := df.rows ++ u.rows ++ l.rows }

/-- `BarReader._from_db` (`reader.py:217-278`).  A missing symbol
(`NoDataFoundException`) or a corrupt key (`KeyError`) is caught and
**returned** as a failed `ReaderResult`; only an empty (range-restricted)
frame **raises** `DataAccessError`.  Otherwise the lower/upper edges are
backfilled from the web when the cached bounds fall short of the requested
bounds on trading-day endpoints, and the frames are concatenated. -/
def from_db (remote : Remote) (lib_name t source : String) (s e : Nat)
    (filter_data : Bool) (st : St) : Except Exc ReaderResult × St :=
  match dict_get st.cache t with
  | none => (.ok ⟨lib_name, t, none, false⟩, st)
  | some CacheEntry.corrupt => (.ok ⟨lib_name, t, none, false⟩, st)
  | some (CacheEntry.stored stored) =>
    let df := if filter_data then restrict_rows stored s e else stored
    if df.empty then
      (.error (Exc.dataAccessError "DataFrame was empty. No data found."), st)
    else
      let db_start := min_date df
      let db_end := max_date df
      let (lower_df, st1) :=
        if db_start > s && is_trade_day s then
          let (r, st') := from_web remote lib_name t source s (prev_bday db_start) st
          (r.df, st')
        else (none, st)
      let (upper_df, st2) :=
        if db_end < e && is_trade_day e then
          let (r, st') := from_web remote lib_name t source db_end e st1
          (r.df, st')
        else (none, st1)
      (.ok ⟨lib_name, t, some (concat_dfs lower_df upper_df df), true⟩, st2)

/-- `BarReader._single_get_data` (`reader.py:160-182`).  With `check_db`,
a `DataAccessError` **raised** by `_from_db` falls through to the web call;
a failed `ReaderResult` merely *returned* by `_from_db` is returned as is.
The web step never raises (`_from_web` returns failures as values), so the
`except` around it is dead and every outcome is a `ReaderResult`. -/
def single_get_data (remote : Remote) (lib_name t source : String) (s e : Nat)
    (check_db filter_data : Bool) (st : St) : ReaderResult × St :=
  if check_db then
    match from_db remote lib_name t source s e filter_data st with
    | (.ok r, st') => (r, st')
    | (.error _, st') => from_web remote lib_name t source s e st'
  else
    from_web remote lib_name t source s e st

/-- `BarReader.get_data` (`reader.py:57-115`), the `isinstance(tickers, str)`
branch: sanitize the dates, run the single-ticker path, and return the
result's `df` attribute.  The source wraps this in
`except DataAccessError: raise DataAccessError(...)`, but `_single_get_data`
never raises `DataAccessError` (it returns failures as values), so that
handler cannot fire and a failed fetch yields `.ok none`. -/
def get_data_single (remote : Remote) (lib_name t source : String)
    (start0 end0 : Option Nat) (today : Nat) (check_db filter_data : Bool)
    (st : St) : Except Exc (Option DataFrame) × St :=
  match sanitize_dates today start0 end0 with
  | .error ex => (.error ex, st)
  | .ok (s, e) =>
    let (r, st') := single_get_data remote lib_name t source s e check_db filter_data st
    (.ok r.df, st')

/-- The `ThreadPool.starmap_async` fan-out of `_mult_tickers_get_data`
(`reader.py:130-138`): one `_single_get_data` call per ticker, results in
input order.  Store effects are linearized in input order (one admissible
interleaving; each task only reads the shared library and appends fetched
chunks). -/
def run_pool (remote : Remote) (lib_name source : String) (s e : Nat)
    (check_db filter_data : Bool) : List String → St → List ReaderResult × St
  | [], st => ([], st)
  | t :: ts, st =>
    let (r, st1) := single_get_data remote lib_name t source s e check_db filter_data st
    let (rs, st2) := run_pool remote lib_name source s e check_db filter_data ts st1
    (r :: rs, st2)

/-- Accumulator of the collection loop at `reader.py:140-145`: the `stocks`
dict and the `passed` / `failed` ticker lists. -/
structure BatchAcc where
  stocks : List (String × Option DataFrame)
  passed : List String
  failed : List String
deriving DecidableEq, Repr

/-- One iteration of the `for r in res` loop at `reader.py:140-145`. -/
def collect_step (acc : BatchAcc) (r : ReaderResult) : BatchAcc :=
  if r.successful then
    { acc with stocks := dict_insert acc.stocks r.ticker r.df,
               passed := acc.passed ++ [r.ticker] }
  else
    { acc with failed := acc.failed ++ [r.ticker] }

/-- The whole collection loop at `reader.py:140-145`. -/
def collect (res : List ReaderResult) : BatchAcc :=
  res.foldl collect_step ⟨[], [], []⟩

/-- `df_na = stocks[passed[0]].copy(); df_na[:] = np.nan`
(`reader.py:151-152`): same columns and date index, every cell the
missing-value marker. -/
def fill_all_nan (df : DataFrame) : DataFrame :=
  { df with rows := df.rows.map (fun r => { r with cells := r.cells.map (fun _ => Cell.nan) }) }

/-- `BarReader._mult_tickers_get_data` (`reader.py:117-158`).  All tickers
failed (`passed` empty) raises `DataAccessError('No data could be
retrieved.')`; on a mixed outcome one NaN placeholder is built from the
first passed ticker's frame and assigned to every failed ticker.  (The
source guards the mixed branch with `len(stocks) > 0 and len(failed) > 0
and len(passed) > 0`; after the all-failed check `passed` — and hence
`stocks` — is necessarily nonempty, which the `match` below makes
explicit.) -/
def mult_tickers_get_data (remote : Remote) (lib_name : String)
    (tickers : List String) (source : String) (s e : Nat)
    (check_db filter_data : Bool) (st : St) :
    Except Exc (List (String × Option DataFrame)) × St :=
  let (res, st') := run_pool remote lib_name source s e check_db filter_data tickers st
  let acc := collect res
  match acc.passed with
  | [] => (.error (Exc.dataAccessError "No data could be retrieved."), st')
  | p0 :: _ =>
    if acc.stocks.length > 0 && acc.failed.length > 0 then
      let df_na := ((dict_get acc.stocks p0).join).map fill_all_nan
      (.ok (acc.failed.foldl (fun m t => dict_insert m t df_na) acc.stocks), st')
    else
      (.ok acc.stocks, st')

/-- `BarReader.get_data` (`reader.py:57-115`), the collection branch:
sanitize the dates and delegate to `_mult_tickers_get_data`, re-raising its
`DataAccessError` unchanged. -/
def get_data_multi (remote : Remote) (lib_name : String) (tickers : List String)
    (source : String) (start0 end0 : Option Nat) (today : Nat)
    (check_db filter_data : Bool) (st : St) :
    Except Exc (List (String × Option DataFrame)) × St :=
  match sanitize_dates today start0 end0 with
  | .error ex => (.error ex, st)
  | .ok (s, e) =>
    mult_tickers_get_data remote lib_name tickers source s e check_db filter_data st

/-- `BarReader.get_symbols` (`reader.py:280-282`): enumerate the cached
symbols. -/
def get_symbols (st : St) : List String := st.cache.map Prod.fst

/-- The trading days of the inclusive range `[a, b]`, in increasing order:
the reference vocabulary for the coverage statements below. -/
def trading_days (a b : Nat) : List Nat :=
  (List.range' a (b + 1 - a)).filter is_trade_day

/-- Dates strictly increasing — the spec's series invariant, as an
executable check. -/
def strict_incr : List Nat → Bool
  | [] => true
  | [_] => true
  | a :: b :: rest => decide (a < b) && strict_incr (b :: rest)

/-- The executable invariant check agrees with `List.Chain' (· < ·)`. -/
theorem strict_incr_iff_chain (l : List Nat) :
    strict_incr l = true ↔ List.Chain' (fun a b => a < b) l := by
  match l with
  | [] => simp [strict_incr]
  | [a] => simp [strict_incr]
  | a :: b :: rest =>
    rw [strict_incr, List.chain'_cons, Bool.and_eq_true, decide_eq_true_iff,
      strict_incr_iff_chain (b :: rest)]

/-!
### Concrete sample data

A provider whose history has exactly one bar per trading day, and cached
frames as a previous write of such a fetch would have left them.  Day
numbers around 4802 correspond to the spec's P3 example: 4802 = Monday
2023-02-20, 4811 = Wednesday 2023-03-01, 4830 = Monday 2023-03-20,
4834 = Friday 2023-03-24.
-/

/-- One provider bar for one day. -/
def sample_raw_row (d : Nat) : Row :=
  ⟨d, [Cell.num d, Cell.num (d + 1), Cell.num (d - 1), Cell.num d, Cell.num 1000]⟩

/-- Provider-style column names, pre-normalization. -/
def sample_raw_cols : List String := ["Open", "High", "Low", "Close", "Volume"]

/-- The provider's full history for the trading days of `[a, b]`. -/
def sample_history (a b : Nat) : DataFrame :=
  ⟨sample_raw_cols, (trading_days a b).map sample_raw_row⟩

/-- A cached series for the trading days of `[a, b]`, in the canonical
schema a prior successful fetch would have stored. -/
def sample_cached (t : String) (a b : Nat) : DataFrame :=
  set_ticker_col t (rename_bar_cols (sample_history a b))

/-- C2/C3 scenario: "AAPL" cached for `[2023-03-01, 2023-03-20]`, provider
history covering `[4790, 4840]`, requested range `[2023-02-20, 2023-03-24]`
(both endpoints trading days). -/
def edge_remote : Remote := [("AAPL", RemoteEntry.avail (sample_history 4790 4840))]

/-- C2/C3 scenario cache state, see `edge_remote`. -/
def edge_st : St := ⟨[("AAPL", CacheEntry.stored (sample_cached "AAPL" 4811 4830))], []⟩

/-- The C2/C3 scenario run end to end. -/
def edge_run : ReaderResult × St :=
  single_get_data edge_remote "pytech.bars" "AAPL" "google" 4802 4834 true true edge_st

/-- C1: the code does NOT fall back to a remote fetch on `NotFound` or
`StoreError`.  With "AAPL" absent from the cache (`NoDataFoundException`)
— or present as a corrupt entry (`KeyError`) — while the provider has a
full nonempty history for the requested range, `_single_get_data` with
`check_db=True` returns the failed `ReaderResult` produced at the
cache-read step: no remote call is logged (`web_log` stays empty) and the
cache-read failure IS surfaced to the caller as the operation's result. -/
theorem c1_cache_read_failure_surfaced :
    (single_get_data [("AAPL", RemoteEntry.avail (sample_history 10 20))]
        "pytech.bars" "AAPL" "google" 10 20 true true ⟨[], []⟩)
      = (⟨"pytech.bars", "AAPL", none, false⟩, ⟨[], []⟩)
    ∧ (single_get_data [("AAPL", RemoteEntry.avail (sample_history 10 20))]
        "pytech.bars" "AAPL" "google" 10 20 true true ⟨[("AAPL", CacheEntry.corrupt)], []⟩)
      = (⟨"pytech.bars", "AAPL", none, false⟩, ⟨[("AAPL", CacheEntry.corrupt)], []⟩)
    ∧ ((data_reader [("AAPL", RemoteEntry.avail (sample_history 10 20))] "AAPL" 10 20).map
        DataFrame.empty) = some false := by
  refine ⟨by decide, by decide, by decide⟩

/-- C4: a single-ticker `get_data` call whose fetch fails does NOT raise.
With "FAKE" absent from both the cache and the provider, every step fails
(the cache read returns a failed result, which — the C1 slip — is returned
without even attempting the network), yet the call returns `Except.ok none`
(the failed result's `df` attribute): the `except DataAccessError` re-raise
in `get_data` never fires because `_single_get_data` returns failures as
values instead of raising.  With `check_db=False` the web call does run,
fails remotely, and the call still returns `Except.ok none` instead of
raising. -/
theorem c4_single_ticker_failure_returns_none :
    get_data_single [] "pytech.bars" "FAKE" "google" (some 10) (some 20) 100 true true ⟨[], []⟩
      = (Except.ok none, ⟨[], []⟩)
    ∧ get_data_single [] "pytech.bars" "FAKE" "google" (some 10) (some 20) 100 false true ⟨[], []⟩
      = (Except.ok none, ⟨[], [("FAKE", "google", 10, 20)]⟩) := by
  refine ⟨by decide, by decide⟩

/-- C2 counterexample: in the P3 scenario — "AAPL" cached exactly for the
trading days of `[2023-03-01, 2023-03-20]` (days 4811..4830), requested as
`[2023-02-20, 2023-03-24]` (days 4802..4834, both trading days), provider
fully stocked — the merged result contains the cached end date 4830
(2023-03-20) TWICE: the upper backfill fetches `[db_end, end]` inclusive of
`db_end`, so the bar already cached for `db_end` is duplicated by the
concatenation.  The claim's "exactly one bar per trading day ... with no
duplicate dates" is therefore false on the code. -/
theorem c2_counterexample_duplicate_at_cached_end :
    is_trade_day 4802 = true ∧ is_trade_day 4834 = true
    ∧ 4802 < min_date (sample_cached "AAPL" 4811 4830)
    ∧ max_date (sample_cached "AAPL" 4811 4830) < 4834
    ∧ edge_run.1.successful = true
    ∧ ((edge_run.1.df.map datesOf).getD []).count 4830 = 2 := by
  refine ⟨by decide, by decide, by decide, by decide, by decide, by decide⟩

/-- C3 counterexample: the same successful merged result has its rows in the
concatenation order `[cached, upper, lower]` (`reader.py:303`), so its date
index is not strictly increasing (the lower backfill's earlier dates follow
the cached and upper dates, and the cached end date repeats). -/
theorem c3_counterexample_merged_dates_not_increasing :
    edge_run.1.successful = true
    ∧ strict_incr ((edge_run.1.df.map datesOf).getD []) = false := by
  refine ⟨by decide, by decide⟩

/-- C8 counterexample: the very same read-only call (`_single_get_data`,
no caller-triggered write) changes the cache: the `@write_chunks()`
decorator on `_from_web` persists each successfully backfilled edge, so the
cache state after the call differs from the cache state before it. -/
theorem c8_counterexample_read_path_writes_cache :
    edge_run.2.cache ≠ edge_st.cache := by
  decide

/-- C6: whenever the collection loop over the per-ticker results leaves
`passed` empty (every ticker's reconciliation failed), the batch call
raises `DataAccessError('No data could be retrieved.')` — the spec's
`NoDataError` — instead of returning a mapping. -/
theorem c6_all_failed_raises_no_data_error
    (remote : Remote) (lib : String) (tickers : List String) (source : String)
    (s e : Nat) (check_db filter_data : Bool) (st : St)
    (h : (collect (run_pool remote lib source s e check_db filter_data tickers st).1).passed = []) :
    (mult_tickers_get_data remote lib tickers source s e check_db filter_data st).1
      = Except.error (Exc.dataAccessError "No data could be retrieved.") := by
  rcases hrp : run_pool remote lib source s e check_db filter_data tickers st with ⟨res, st2⟩
  rw [hrp] at h
  simp only [mult_tickers_get_data, hrp, h]

/-- C6 witness: tickers "A" and "B" against an empty world both fail, and
the batch raises `DataAccessError('No data could be retrieved.')`. -/
theorem c6_all_failed_raises_no_data_error_witness :
    (mult_tickers_get_data [] "pytech.bars" ["A", "B"] "google" 10 20 true true ⟨[], []⟩).1
      = Except.error (Exc.dataAccessError "No data could be retrieved.") :=
  c6_all_failed_raises_no_data_error [] "pytech.bars" ["A", "B"] "google" 10 20 true true
    ⟨[], []⟩ (by decide)

/-- C7: if the cached series read for `[s, e]` is nonempty and neither the
lower-edge condition (`db_start > start` and `start` a trading day) nor the
upper-edge condition (`db_end < end` and `end` a trading day) holds, the
call returns the cached (range-restricted) series unchanged and the final
state equals the initial state — in particular the web-call log is
unchanged, i.e. no remote call occurred, and nothing was written. -/
theorem c7_cache_sufficiency
    (remote : Remote) (lib t source : String) (s e : Nat) (st : St) (dfC : DataFrame)
    (hcache : dict_get st.cache t = some (CacheEntry.stored dfC))
    (hne : (restrict_rows dfC s e).empty = false)
    (hlow : (decide (min_date (restrict_rows dfC s e) > s) && is_trade_day s) = false)
    (hup : (decide (max_date (restrict_rows dfC s e) < e) && is_trade_day e) = false) :
    single_get_data remote lib t source s e true true st
      = (⟨lib, t, some (restrict_rows dfC s e), true⟩, st) := by
  simp only [single_get_data, from_db, hcache, hne, hlow, hup, if_true, Bool.false_eq_true,
    if_false, concat_dfs]

/-- C7 witness: "AAPL" cached for the trading days of `[4800, 4836]` covers
the requested `[4802, 4834]`; the cached rows come back unchanged, no
remote call is made, and the state is untouched. -/
theorem c7_cache_sufficiency_witness :
    single_get_data edge_remote "pytech.bars" "AAPL" "google" 4802 4834 true true
        ⟨[("AAPL", CacheEntry.stored (sample_cached "AAPL" 4800 4836))], []⟩
      = (⟨"pytech.bars", "AAPL",
            some (restrict_rows (sample_cached "AAPL" 4800 4836) 4802 4834), true⟩,
          ⟨[("AAPL", CacheEntry.stored (sample_cached "AAPL" 4800 4836))], []⟩) :=
  c7_cache_sufficiency edge_remote "pytech.bars" "AAPL" "google" 4802 4834
    ⟨[("AAPL", CacheEntry.stored (sample_cached "AAPL" 4800 4836))], []⟩
    (sample_cached "AAPL" 4800 4836) (by decide) (by decide) (by decide) (by decide)

/-- Helper: `_from_web` reads the state only through the cache — two states
with equal caches yield equal results and equal final caches. -/
theorem from_web_ext (remote : Remote) (lib t source : String) (s e : Nat)
    (st st' : St) (h : st.cache = st'.cache) :
    (from_web remote lib t source s e st).1 = (from_web remote lib t source s e st').1
    ∧ (from_web remote lib t source s e st).2.cache
        = (from_web remote lib t source s e st').2.cache := by
  unfold from_web
  cases data_reader remote t s e with
  | none => exact ⟨rfl, h⟩
  | some raw => by_cases hr : raw.empty <;> simp [hr, h]

/-- Helper: `_from_db` reads the state only through the cache. -/
theorem from_db_ext (remote : Remote) (lib t source : String) (s e : Nat) (fd : Bool)
    (st st' : St) (h : st.cache = st'.cache) :
    (from_db remote lib t source s e fd st).1 = (from_db remote lib t source s e fd st').1
    ∧ (from_db remote lib t source s e fd st).2.cache
        = (from_db remote lib t source s e fd st').2.cache := by
  unfold from_db
  rw [h]
  cases dict_get st'.cache t with
  | none => exact ⟨rfl, h⟩
  | some entry =>
    cases entry with
    | corrupt => exact ⟨rfl, h⟩
    | stored stored =>
      by_cases hemp : (if fd then restrict_rows stored s e else stored).empty <;>
        simp only [hemp, if_true, if_false]
      · exact ⟨trivial, h⟩
      · set df := (if fd = true then restrict_rows stored s e else stored) with hdf
        by_cases hlow : (decide (min_date df > s) && is_trade_day s) = true <;>
          by_cases hup : (decide (max_date df < e) && is_trade_day e) = true <;>
            simp only [hlow, hup, if_true, if_false, Bool.false_eq_true]
        · have h1 := from_web_ext remote lib t source s (prev_bday (min_date df)) st st' h
          have h2 := from_web_ext remote lib t source (max_date df) e
            (from_web remote lib t source s (prev_bday (min_date df)) st).2
            (from_web remote lib t source s (prev_bday (min_date df)) st').2 h1.2
          simp [h1.1, h2.1, h2.2]
        · have h1 := from_web_ext remote lib t source s (prev_bday (min_date df)) st st' h
          simp [h1.1, h1.2]
        · have h2 := from_web_ext remote lib t source (max_date df) e st st' h
          simp [h2.1, h2.2]
        · exact ⟨trivial, h⟩

/-- Helper: `_single_get_data` reads the state only through the cache: its
result and its cache effect are functions of the cache alone (the web-call
log never influences behaviour). -/
theorem single_get_data_ext (remote : Remote) (lib t source : String) (s e : Nat)
    (cdb fd : Bool) (st st' : St) (h : st.cache = st'.cache) :
    (single_get_data remote lib t source s e cdb fd st).1
        = (single_get_data remote lib t source s e cdb fd st').1
    ∧ (single_get_data remote lib t source s e cdb fd st).2.cache
        = (single_get_data remote lib t source s e cdb fd st').2.cache := by
  have hdb := from_db_ext remote lib t source s e fd st st' h
  unfold single_get_data
  cases cdb with
  | false => simpa using from_web_ext remote lib t source s e st st' h
  | true =>
    rcases hd : from_db remote lib t source s e fd st with ⟨r1, st1⟩
    rcases hd2 : from_db remote lib t source s e fd st' with ⟨r2, st2⟩
    rw [hd, hd2] at hdb
    simp only at hdb
    obtain ⟨hr, hc⟩ := hdb
    subst hr
    cases r1 with
    | ok r => simpa using hc
    | error ex => simpa using from_web_ext remote lib t source s e st1 st2 hc

/-- Helper: every `_from_web` call appends exactly one entry to the
remote-call log. -/
theorem from_web_log (remote : Remote) (lib t source : String) (s e : Nat) (st : St) :
    (from_web remote lib t source s e st).2.web_log = st.web_log ++ [(t, source, s, e)] := by
  unfold from_web
  cases data_reader remote t s e with
  | none => simp
  | some raw => by_cases hr : raw.empty <;> simp [hr]

/-- Helper: `_from_db` either leaves the state untouched or makes at least
one remote call (growing the log). -/
theorem from_db_state (remote : Remote) (lib t source : String) (s e : Nat)
    (fd : Bool) (st : St) :
    (from_db remote lib t source s e fd st).2 = st
    ∨ st.web_log.length < (from_db remote lib t source s e fd st).2.web_log.length := by
  unfold from_db
  cases dict_get st.cache t with
  | none => left; rfl
  | some entry =>
    cases entry with
    | corrupt => left; rfl
    | stored stored =>
      by_cases hemp : (if fd then restrict_rows stored s e else stored).empty <;>
        simp only [hemp, if_true, if_false]
      · left; trivial
      · set df := (if fd = true then restrict_rows stored s e else stored) with hdf
        by_cases hlow : (decide (min_date df > s) && is_trade_day s) = true <;>
          by_cases hup : (decide (max_date df < e) && is_trade_day e) = true <;>
            simp only [hlow, hup, if_true, if_false, Bool.false_eq_true]
        · right
          rw [from_web_log, from_web_log]
          simp
        · right
          rw [from_web_log]
          simp
        · right
          rw [from_web_log]
          simp
        · left; trivial

/-- Helper: a `_single_get_data` call that makes no remote call (log
unchanged) leaves the state — in particular the cache — unchanged. -/
theorem single_no_call_no_write (remote : Remote) (lib t source : String) (s e : Nat)
    (cdb fd : Bool) (st : St)
    (h : (single_get_data remote lib t source s e cdb fd st).2.web_log = st.web_log) :
    (single_get_data remote lib t source s e cdb fd st).2 = st := by
  unfold single_get_data at h ⊢
  cases cdb with
  | false =>
    simp only [Bool.false_eq_true, if_false] at h ⊢
    rw [from_web_log] at h
    simp at h
  | true =>
    simp only [if_true] at h ⊢
    have hshape := from_db_state remote lib t source s e fd st
    rcases hd : from_db remote lib t source s e fd st with ⟨r1, st1⟩
    rw [hd] at hshape h
    simp only at hshape
    cases r1 with
    | ok r =>
      simp only at h ⊢
      rcases hshape with hs | hs
      · exact hs
      · exfalso
        rw [h] at hs
        omega
    | error ex =>
      simp only at h ⊢
      rw [from_web_log] at h
      rcases hshape with hs | hs
      · rw [hs] at h
        simp at h
      · exfalso
        have : (st1.web_log ++ [(t, source, s, e)]).length = st.web_log.length := by rw [h]
        simp at this
        omega

/-- A cache state whose "AAPL" series fully covers the `[4802, 4834]`
request: a cache-hit scenario with no backfill, hence no write. -/
def cover_st : St := ⟨[("AAPL", CacheEntry.stored (sample_cached "AAPL" 4800 4836))], []⟩

/-- C9: reconciliation is deterministic in the external state — if the
first call leaves the cache unchanged (the claim's "unchanged cache state";
the remote world is a fixed value here, "unchanged remote data"), a second
call in succession returns the identical series. -/
theorem c9_reconcile_idempotent (remote : Remote) (lib t source : String) (s e : Nat)
    (check_db filter_data : Bool) (st : St)
    (h : (single_get_data remote lib t source s e check_db filter_data st).2.cache = st.cache) :
    (single_get_data remote lib t source s e check_db filter_data
        ((single_get_data remote lib t source s e check_db filter_data st).2)).1
      = (single_get_data remote lib t source s e check_db filter_data st).1 :=
  (single_get_data_ext remote lib t source s e check_db filter_data
    ((single_get_data remote lib t source s e check_db filter_data st).2) st h).1

/-- C9 witness: a fully-covering cache hit leaves the cache unchanged, and
running the call twice in succession yields the identical result. -/
theorem c9_reconcile_idempotent_witness :
    (single_get_data edge_remote "pytech.bars" "AAPL" "google" 4802 4834 true true
        ((single_get_data edge_remote "pytech.bars" "AAPL" "google" 4802 4834 true true cover_st).2)).1
      = (single_get_data edge_remote "pytech.bars" "AAPL" "google" 4802 4834 true true cover_st).1 :=
  c9_reconcile_idempotent edge_remote "pytech.bars" "AAPL" "google" 4802 4834 true true
    cover_st (by decide)

/-- C8 amended: the read path does write to the cache.  Every remote call
the read path makes goes through `_from_web`, whose `@write_chunks()`
decorator persists each successfully fetched frame — this is how an edge
backfill or a full-range fallback grows the cache as a side effect of a
read, with no separate caller-triggered write (the counterexample exhibits
such a change of cache state).  Precisely: (1) a call that makes no remote
call (its remote-call log is unchanged) leaves the entire state — in
particular the cache — unchanged; (2) a successful `_from_web` call writes
the frame it returns into the cache via `write_chunks`, and a failed
`_from_web` call leaves the cache unchanged. -/
theorem c8_amended_read_write_policy :
    (∀ (remote : Remote) (lib t source : String) (s e : Nat) (check_db filter_data : Bool) (st : St),
      (single_get_data remote lib t source s e check_db filter_data st).2.web_log = st.web_log →
      (single_get_data remote lib t source s e check_db filter_data st).2 = st)
    ∧ (∀ (remote : Remote) (lib t source : String) (s e : Nat) (st : St),
      ((from_web remote lib t source s e st).1.successful = true →
        ∃ df, (from_web remote lib t source s e st).1.df = some df
          ∧ (from_web remote lib t source s e st).2.cache = write_chunks st.cache t df)
      ∧ ((from_web remote lib t source s e st).1.successful = false →
        (from_web remote lib t source s e st).2.cache = st.cache)) := by
  constructor
  · exact single_no_call_no_write
  · intro remote lib t source s e st
    constructor
    · intro hsucc
      unfold from_web at hsucc ⊢
      cases hdr : data_reader remote t s e with
      | none =>
        rw [hdr] at hsucc
        simp at hsucc
      | some raw =>
        rw [hdr] at hsucc
        by_cases hr : raw.empty
        · simp [hr] at hsucc
        · exact ⟨set_ticker_col t (rename_bar_cols raw), by simp [hr], by simp [hr]⟩
    · intro hfail
      unfold from_web at hfail ⊢
      cases hdr : data_reader remote t s e with
      | none => rfl
      | some raw =>
        rw [hdr] at hfail
        by_cases hr : raw.empty
        · simp [hr]
        · simp [hr] at hfail

/-- C8 amended witness: the covering cache hit makes no remote call and
leaves the state unchanged; a concrete successful full-range fetch writes
its frame to the cache via `write_chunks`; a concrete failed fetch leaves
the cache unchanged. -/
theorem c8_amended_read_write_policy_witness :
    ((single_get_data edge_remote "pytech.bars" "AAPL" "google" 4802 4834 true true cover_st).2
        = cover_st)
    ∧ (∃ df, (from_web edge_remote "pytech.bars" "AAPL" "google" 4802 4834 ⟨[], []⟩).1.df = some df
        ∧ (from_web edge_remote "pytech.bars" "AAPL" "google" 4802 4834 ⟨[], []⟩).2.cache
            = write_chunks [] "AAPL" df)
    ∧ (from_web [] "pytech.bars" "FAKE" "google" 10 20 ⟨[], []⟩).2.cache = [] :=
  ⟨c8_amended_read_write_policy.1 edge_remote "pytech.bars" "AAPL" "google" 4802 4834 true true
      cover_st (by decide),
   (c8_amended_read_write_policy.2 edge_remote "pytech.bars" "AAPL" "google" 4802 4834
      ⟨[], []⟩).1 (by decide),
   (c8_amended_read_write_policy.2 [] "pytech.bars" "FAKE" "google" 10 20 ⟨[], []⟩).2 (by decide)⟩

/-- Helper: `_from_web` tags its result with the requested ticker. -/
theorem from_web_ticker (remote : Remote) (lib t source : String) (s e : Nat) (st : St) :
    (from_web remote lib t source s e st).1.ticker = t := by
  unfold from_web
  cases data_reader remote t s e with
  | none => rfl
  | some raw => by_cases hr : raw.empty <;> simp [hr]

/-- Helper: a successful `_from_web` result carries a frame. -/
theorem from_web_wf (remote : Remote) (lib t source : String) (s e : Nat) (st : St) :
    (from_web remote lib t source s e st).1.successful = true →
    (from_web remote lib t source s e st).1.df.isSome := by
  unfold from_web
  cases data_reader remote t s e with
  | none => simp
  | some raw => by_cases hr : raw.empty <;> simp [hr]

/-- Helper: a `_from_db` result returned (not raised) is tagged with the
requested ticker and, when successful, carries a frame. -/
theorem from_db_ok_shape (remote : Remote) (lib t source : String) (s e : Nat)
    (fd : Bool) (st : St) :
    ∀ r st1, from_db remote lib t source s e fd st = (Except.ok r, st1) →
      r.ticker = t ∧ (r.successful = true → r.df.isSome) := by
  intro r st1 h
  unfold from_db at h
  rcases hdg : dict_get st.cache t with _ | entry
  · rw [hdg] at h
    simp only [Prod.mk.injEq, Except.ok.injEq] at h
    rw [← h.1]
    simp
  · rcases entry with stored | _
    · rw [hdg] at h
      by_cases hemp : (if fd then restrict_rows stored s e else stored).empty
      · simp only [hemp, if_true] at h
        simp at h
      · simp only [hemp, if_false, Bool.false_eq_true] at h
        simp only [Prod.mk.injEq, Except.ok.injEq] at h
        rw [← h.1]
        simp
    · rw [hdg] at h
      simp only [Prod.mk.injEq, Except.ok.injEq] at h
      rw [← h.1]
      simp

/-- Helper: every `_single_get_data` result is tagged with the requested
ticker and, when successful, carries a frame. -/
theorem single_get_data_shape (remote : Remote) (lib t source : String) (s e : Nat)
    (cdb fd : Bool) (st : St) :
    (single_get_data remote lib t source s e cdb fd st).1.ticker = t
    ∧ ((single_get_data remote lib t source s e cdb fd st).1.successful = true →
        (single_get_data remote lib t source s e cdb fd st).1.df.isSome) := by
  unfold single_get_data
  cases cdb with
  | false =>
    simpa using ⟨from_web_ticker remote lib t source s e st, from_web_wf remote lib t source s e st⟩
  | true =>
    simp only [if_true]
    rcases hd : from_db remote lib t source s e fd st with ⟨r1, st1⟩
    cases r1 with
    | ok r =>
      have := from_db_ok_shape remote lib t source s e fd st r st1 hd
      simpa using this
    | error ex =>
      simpa using ⟨from_web_ticker remote lib t source s e st1, from_web_wf remote lib t source s e st1⟩

/-- Helper: the pool returns one result per ticker, in input order. -/
theorem run_pool_tickers (remote : Remote) (lib source : String) (s e : Nat)
    (cdb fd : Bool) : ∀ (ts : List String) (st : St),
    ((run_pool remote lib source s e cdb fd ts st).1).map ReaderResult.ticker = ts := by
  intro ts
  induction ts with
  | nil => intro st; rfl
  | cons t ts ih =>
    intro st
    rcases hs : single_get_data remote lib t source s e cdb fd st with ⟨r, st1⟩
    rcases hr : run_pool remote lib source s e cdb fd ts st1 with ⟨rs, st2⟩
    have h1 : r.ticker = t := by
      have := (single_get_data_shape remote lib t source s e cdb fd st).1
      rw [hs] at this
      exact this
    have h2 : rs.map ReaderResult.ticker = ts := by
      have := ih st1
      rw [hr] at this
      exact this
    simp [run_pool, hs, hr, h1, h2]

/-- Helper: every successful pool result carries a frame. -/
theorem run_pool_wf (remote : Remote) (lib source : String) (s e : Nat)
    (cdb fd : Bool) : ∀ (ts : List String) (st : St),
    ∀ r ∈ (run_pool remote lib source s e cdb fd ts st).1,
      r.successful = true → r.df.isSome := by
  intro ts
  induction ts with
  | nil => intro st r hr; simp [run_pool] at hr
  | cons t ts ih =>
    intro st r hmem
    rcases hs : single_get_data remote lib t source s e cdb fd st with ⟨r1, st1⟩
    rcases hr : run_pool remote lib source s e cdb fd ts st1 with ⟨rs, st2⟩
    rw [run_pool, hs] at hmem
    simp only at hmem
    rw [hr] at hmem
    simp only [List.mem_cons] at hmem
    rcases hmem with rfl | hmem
    · have := (single_get_data_shape remote lib t source s e cdb fd st).2
      rw [hs] at this
      exact this
    · have := ih st1 r
      rw [hr] at this
      exact this hmem

/-- Helper: inserting a fresh key appends. -/
theorem dict_insert_fresh {β : Type} (m : List (String × β)) (k : String) (v : β)
    (h : ∀ p ∈ m, p.1 ≠ k) : dict_insert m k v = m ++ [(k, v)] := by
  have hany : m.any (fun p => p.1 == k) = false := by
    rw [List.any_eq_false]
    intro p hp
    simpa using h p hp
  unfold dict_insert
  rw [hany]
  simp

/-- Helper: a key found in the left part of an append is returned. -/
theorem dict_get_append_left {β : Type} (m1 m2 : List (String × β)) (k : String) (v : β)
    (h : dict_get m1 k = some v) : dict_get (m1 ++ m2) k = some v := by
  unfold dict_get at h ⊢
  cases hf : m1.find? (fun p => p.1 == k) with
  | none => rw [hf] at h; simp at h
  | some p =>
    rw [hf] at h
    rw [List.find?_append, hf]
    simpa using h

/-- Helper: lookup skips an association-list prefix free of the key. -/
theorem dict_get_append_right {β : Type} (m1 m2 : List (String × β)) (k : String)
    (h : ∀ p ∈ m1, p.1 ≠ k) : dict_get (m1 ++ m2) k = dict_get m2 k := by
  unfold dict_get
  rw [List.find?_append]
  have : m1.find? (fun p => p.1 == k) = none := by
    rw [List.find?_eq_none]
    intro p hp
    simpa using h p hp
  rw [this]
  simp

/-- Helper: lookup in a constant-valued association list built over a key
list containing the key. -/
theorem dict_get_map_const {β : Type} (v : β) : ∀ (l : List String) (k : String),
    k ∈ l → dict_get (l.map (fun t => (t, v))) k = some v := by
  intro l
  induction l with
  | nil => intro k hk; simp at hk
  | cons a l ih =>
    intro k hk
    by_cases hak : a = k
    · subst hak
      unfold dict_get
      simp
    · rcases List.mem_cons.1 hk with rfl | hk
      · exact absurd rfl hak
      · unfold dict_get at ih ⊢
        rw [List.map_cons, List.find?_cons_of_neg _ (by simpa using hak)]
        exact ih k hk

/-- Helper: the failed-ticker insertion loop appends one entry per failed
ticker when the keys are fresh and distinct. -/
theorem foldl_dict_insert_fresh {β : Type} (v : β) : ∀ (l : List String)
    (m : List (String × β)), l.Nodup → (∀ t ∈ l, ∀ p ∈ m, p.1 ≠ t) →
    l.foldl (fun m t => dict_insert m t v) m = m ++ l.map (fun t => (t, v)) := by
  intro l
  induction l with
  | nil => intro m _ _; simp
  | cons t l ih =>
    intro m hnd hfresh
    have hstep : dict_insert m t v = m ++ [(t, v)] :=
      dict_insert_fresh m t v (fun p hp => hfresh t (by simp) p hp)
    have hnd' : l.Nodup := (List.nodup_cons.1 hnd).2
    have htl : t ∉ l := (List.nodup_cons.1 hnd).1
    have hfresh' : ∀ t' ∈ l, ∀ p ∈ m ++ [(t, v)], p.1 ≠ t' := by
      intro t' ht' p hp
      rcases List.mem_append.1 hp with hp | hp
      · exact hfresh t' (by simp [ht']) p hp
      · simp only [List.mem_singleton] at hp
        subst hp
        intro hc
        simp only at hc
        subst hc
        exact htl ht'
    calc (t :: l).foldl (fun m t => dict_insert m t v) m
        = l.foldl (fun m t => dict_insert m t v) (dict_insert m t v) := rfl
      _ = (m ++ [(t, v)]) ++ l.map (fun t => (t, v)) := by rw [hstep]; exact ih _ hnd' hfresh'
      _ = m ++ (t :: l).map (fun t => (t, v)) := by simp

/-- Helper: the collection loop's `passed` list is the successful results'
tickers in order. -/
theorem collect_foldl_passed : ∀ (res : List ReaderResult) (acc : BatchAcc),
    (res.foldl collect_step acc).passed
      = acc.passed ++ (res.filter (fun r => r.successful)).map ReaderResult.ticker := by
  intro res
  induction res with
  | nil => intro acc; simp
  | cons r rs ih =>
    intro acc
    by_cases hs : r.successful = true <;>
      simp only [List.foldl_cons, collect_step, hs, if_true, if_false, List.filter_cons] <;>
      simp [ih, hs]

/-- Helper: the collection loop's `failed` list is the failed results'
tickers in order. -/
theorem collect_foldl_failed : ∀ (res : List ReaderResult) (acc : BatchAcc),
    (res.foldl collect_step acc).failed
      = acc.failed ++ (res.filter (fun r => !r.successful)).map ReaderResult.ticker := by
  intro res
  induction res with
  | nil => intro acc; simp
  | cons r rs ih =>
    intro acc
    by_cases hs : r.successful = true <;>
      simp only [List.foldl_cons, collect_step, hs, if_true, if_false, List.filter_cons] <;>
      simp [ih, hs]

/-- Helper: with pairwise-distinct success tickers the `stocks` dict is the
successful results' (ticker, frame) pairs in order. -/
theorem collect_foldl_stocks : ∀ (res : List ReaderResult) (acc : BatchAcc),
    ((res.filter (fun r => r.successful)).map ReaderResult.ticker).Nodup →
    (∀ r ∈ res, r.successful = true → ∀ p ∈ acc.stocks, p.1 ≠ r.ticker) →
    (res.foldl collect_step acc).stocks
      = acc.stocks ++ (res.filter (fun r => r.successful)).map (fun r => (r.ticker, r.df)) := by
  intro res
  induction res with
  | nil => intro acc _ _; simp
  | cons r rs ih =>
    intro acc hnd hfresh
    by_cases hs : r.successful = true
    · have hstep : dict_insert acc.stocks r.ticker r.df = acc.stocks ++ [(r.ticker, r.df)] :=
        dict_insert_fresh _ _ _ (fun p hp => hfresh r (by simp) hs p hp)
      have hnd' := hnd
      rw [List.filter_cons_of_pos hs, List.map_cons, List.nodup_cons] at hnd'
      have hfresh' : ∀ r' ∈ rs, r'.successful = true →
          ∀ p ∈ acc.stocks ++ [(r.ticker, r.df)], p.1 ≠ r'.ticker := by
          intro r' hr' hs' p hp
          rcases List.mem_append.1 hp with hp | hp
          · exact hfresh r' (by simp [hr']) hs' p hp
          · simp only [List.mem_singleton] at hp
            subst hp
            intro hc
            simp only at hc
            refine hnd'.1 ?_
            rw [hc]
            exact List.mem_map_of_mem ReaderResult.ticker (List.mem_filter.2 ⟨hr', hs'⟩)
      have hrec := ih ⟨acc.stocks ++ [(r.ticker, r.df)], acc.passed ++ [r.ticker], acc.failed⟩
        hnd'.2 (by
          intro r' hr' hs' p hp
          exact hfresh' r' hr' hs' p (by simpa using hp))
      simp only [List.foldl_cons, collect_step, hs, if_true, hstep]
      rw [hrec, List.filter_cons_of_pos hs]
      simp
    · simp only [List.foldl_cons, collect_step, hs, if_false, Bool.false_eq_true]
      rw [List.filter_cons_of_neg (by simpa using hs)]
      exact ih _ (by rwa [List.filter_cons_of_neg (by simpa using hs)] at hnd)
        (fun r' hr' hs' p hp => hfresh r' (by simp [hr']) hs' p hp)

/-- Helper: the NaN placeholder keeps the date index. -/
theorem fill_all_nan_dates (df : DataFrame) : datesOf (fill_all_nan df) = datesOf df := by
  simp [fill_all_nan, datesOf, List.map_map, Function.comp]

/-- Helper: the NaN placeholder keeps the columns. -/
theorem fill_all_nan_cols (df : DataFrame) : (fill_all_nan df).cols = df.cols := rfl

/-- Helper: every cell of the NaN placeholder is the missing-value
marker. -/
theorem fill_all_nan_cells (df : DataFrame) :
    ∀ row ∈ (fill_all_nan df).rows, ∀ c ∈ row.cells, c = Cell.nan := by
  intro row hrow c hc
  simp only [fill_all_nan, List.mem_map] at hrow
  rcases hrow with ⟨r0, _, rfl⟩
  simp only [List.mem_map] at hc
  rcases hc with ⟨c0, _, rfl⟩
  rfl

/-- Helper: full characterization of a mixed-outcome batch with distinct
tickers: the call succeeds with the `stocks` dict extended by one
placeholder entry per failed ticker, where the placeholder is the NaN-fill
of the first passed ticker's frame; the mapping's keys are exactly the
requested tickers. -/
theorem mult_mixed_spec
    (remote : Remote) (lib : String) (tickers : List String) (source : String)
    (s e : Nat) (check_db filter_data : Bool) (st : St)
    (hnd : tickers.Nodup)
    (hp : (collect (run_pool remote lib source s e check_db filter_data tickers st).1).passed ≠ [])
    (hf : (collect (run_pool remote lib source s e check_db filter_data tickers st).1).failed ≠ []) :
    ∃ (m : List (String × Option DataFrame)) (p0 : String) (df0 : DataFrame),
      (mult_tickers_get_data remote lib tickers source s e check_db filter_data st).1
          = Except.ok m
      ∧ (collect (run_pool remote lib source s e check_db filter_data tickers st).1).passed.head?
          = some p0
      ∧ dict_get ((collect (run_pool remote lib source s e check_db filter_data tickers st).1).stocks) p0
          = some (some df0)
      ∧ m = (collect (run_pool remote lib source s e check_db filter_data tickers st).1).stocks
          ++ ((collect (run_pool remote lib source s e check_db filter_data tickers st).1).failed).map
              (fun t => (t, some (fill_all_nan df0)))
      ∧ (m.map Prod.fst).Perm tickers
      ∧ (m.map Prod.fst).Nodup
      ∧ dict_get m p0 = some (some df0)
      ∧ ∀ tf ∈ (collect (run_pool remote lib source s e check_db filter_data tickers st).1).failed,
          dict_get m tf = some (some (fill_all_nan df0)) := by
  rcases hrp : run_pool remote lib source s e check_db filter_data tickers st with ⟨res, stF⟩
  rw [hrp] at hp hf
  simp only at hp hf
  have hmapt : res.map ReaderResult.ticker = tickers := by
    have := run_pool_tickers remote lib source s e check_db filter_data tickers st
    rw [hrp] at this
    exact this
  have hwf : ∀ r ∈ res, r.successful = true → r.df.isSome := by
    have := run_pool_wf remote lib source s e check_db filter_data tickers st
    rw [hrp] at this
    exact this
  have hpassed : (collect res).passed = (res.filter (fun r => r.successful)).map ReaderResult.ticker := by
    unfold collect
    rw [collect_foldl_passed]
    rfl
  have hfailed : (collect res).failed = (res.filter (fun r => !r.successful)).map ReaderResult.ticker := by
    unfold collect
    rw [collect_foldl_failed]
    rfl
  have hperm : List.Perm ((collect res).passed ++ (collect res).failed) tickers := by
    rw [hpassed, hfailed, ← List.map_append, ← hmapt]
    exact List.Perm.map _ (List.filter_append_perm _ res)
  have hnodupPF : ((collect res).passed ++ (collect res).failed).Nodup :=
    (hperm.nodup_iff).2 hnd
  have hpassedNodup : (collect res).passed.Nodup := (List.nodup_append.1 hnodupPF).1
  have hfailedNodup : (collect res).failed.Nodup := (List.nodup_append.1 hnodupPF).2.1
  have hdisj : (collect res).passed.Disjoint (collect res).failed :=
    (List.nodup_append.1 hnodupPF).2.2
  have hstocks : (collect res).stocks
      = (res.filter (fun r => r.successful)).map (fun r => (r.ticker, r.df)) := by
    unfold collect
    rw [collect_foldl_stocks res ⟨[], [], []⟩ (by rwa [hpassed] at hpassedNodup)
      (by intro r _ _ p hp2; simp at hp2)]
    rfl
  have hkeys : ((collect res).stocks).map Prod.fst = (collect res).passed := by
    rw [hstocks, hpassed, List.map_map]
    rfl
  have hstfresh : ∀ tf ∈ (collect res).failed, ∀ p ∈ (collect res).stocks, p.1 ≠ tf := by
    intro tf htf p hp2 hc
    refine hdisj ?_ htf
    rw [← hkeys]
    rw [← hc]
    exact List.mem_map_of_mem Prod.fst hp2
  rcases hps : (collect res).passed with _ | ⟨p0, prest⟩
  · exact absurd hps hp
  rcases hfs : (collect res).failed with _ | ⟨f0, frest⟩
  · exact absurd hfs hf
  -- the first passed entry: head of the stocks assoc list
  have hfilter : ∃ r0 rrest, res.filter (fun r => r.successful) = r0 :: rrest
      ∧ r0.ticker = p0 := by
    rcases hflt : res.filter (fun r => r.successful) with _ | ⟨r0, rrest⟩
    · rw [hpassed, hflt] at hps
      simp at hps
    · refine ⟨r0, rrest, hflt, ?_⟩
      rw [hpassed, hflt] at hps
      simp only [List.map_cons, List.cons.injEq] at hps
      exact hps.1
  rcases hfilter with ⟨r0, rrest, hflt, hr0t⟩
  have hr0succ : r0.successful = true := by
    have : r0 ∈ res.filter (fun r => r.successful) := by rw [hflt]; simp
    exact (List.mem_filter.1 this).2
  have hr0mem : r0 ∈ res := by
    have : r0 ∈ res.filter (fun r => r.successful) := by rw [hflt]; simp
    exact (List.mem_filter.1 this).1
  rcases hdf0 : r0.df with _ | df0
  · have := hwf r0 hr0mem hr0succ
    rw [hdf0] at this
    simp at this
  have hget0 : dict_get ((collect res).stocks) p0 = some (some df0) := by
    rw [hstocks, hflt, List.map_cons]
    unfold dict_get
    rw [List.find?_cons_of_pos _ (by simp [hr0t])]
    simp [hdf0]
  have hguard : (decide ((collect res).stocks.length > 0)
      && decide ((collect res).failed.length > 0)) = true := by
    rw [hstocks, hflt, hfs]
    simp
  have hmult : (mult_tickers_get_data remote lib tickers source s e check_db filter_data st).1
      = Except.ok ((collect res).failed.foldl
          (fun m t => dict_insert m t (((dict_get ((collect res).stocks) p0).join).map fill_all_nan))
          ((collect res).stocks)) := by
    simp only [mult_tickers_get_data, hrp, hps, hguard, if_true]
  have hjoin : ((dict_get ((collect res).stocks) p0).join).map fill_all_nan
      = some (fill_all_nan df0) := by
    rw [hget0]
    rfl
  rw [hjoin] at hmult
  have hfoldl : (collect res).failed.foldl
      (fun m t => dict_insert m t (some (fill_all_nan df0))) ((collect res).stocks)
      = (collect res).stocks
        ++ (collect res).failed.map (fun t => (t, some (fill_all_nan df0))) :=
    foldl_dict_insert_fresh _ _ _ hfailedNodup hstfresh
  rw [hfoldl] at hmult
  have hkeysm : (((collect res).stocks
      ++ (collect res).failed.map (fun t => (t, some (fill_all_nan df0)))).map Prod.fst)
      = (collect res).passed ++ (collect res).failed := by
    rw [List.map_append, hkeys, List.map_map]
    have hid : (Prod.fst ∘ fun t : String => (t, some (fill_all_nan df0))) = id := rfl
    rw [hid, List.map_id]
  refine ⟨_, p0, df0, hmult, rfl, hget0, ?_, ?_, ?_, ?_, ?_⟩
  · rw [hfs]
  · rw [hkeysm]
    exact hperm
  · rw [hkeysm]
    exact (hperm.nodup_iff).2 hnd
  · exact dict_get_append_left _ _ _ _ hget0
  · intro tf htf
    rw [← hfs] at htf
    rw [dict_get_append_right _ _ _ (fun p hp2 => hstfresh tf htf p hp2)]
    exact dict_get_map_const _ _ _ htf

/-- Batch scenario: provider knows only "A". -/
def batch_remote : Remote := [("A", RemoteEntry.avail (sample_history 4790 4840))]

/-- Batch scenario: only "A" is cached (fully covering `[4802, 4834]`);
"B" fails everywhere. -/
def batch_st : St := ⟨[("A", CacheEntry.stored (sample_cached "A" 4800 4836))], []⟩

/-- C5: for a batch over distinct tickers with at least one success and at
least one failure, the call returns a mapping whose keys are exactly the
requested tickers (a permutation, without duplicates), and every failed
ticker's entry is the NaN placeholder copied from the first passed
ticker's (successful) series: same date index, same columns, every value
the missing-value marker. -/
theorem c5_batch_partial_failure
    (remote : Remote) (lib : String) (tickers : List String) (source : String)
    (s e : Nat) (check_db filter_data : Bool) (st : St)
    (hnd : tickers.Nodup)
    (hp : (collect (run_pool remote lib source s e check_db filter_data tickers st).1).passed ≠ [])
    (hf : (collect (run_pool remote lib source s e check_db filter_data tickers st).1).failed ≠ []) :
    ∃ m : List (String × Option DataFrame),
      (mult_tickers_get_data remote lib tickers source s e check_db filter_data st).1
          = Except.ok m
      ∧ (m.map Prod.fst).Perm tickers
      ∧ (m.map Prod.fst).Nodup
      ∧ ∃ p0 df0,
          (collect (run_pool remote lib source s e check_db filter_data tickers st).1).passed.head?
              = some p0
          ∧ dict_get m p0 = some (some df0)
          ∧ datesOf (fill_all_nan df0) = datesOf df0
          ∧ (fill_all_nan df0).cols = df0.cols
          ∧ (∀ row ∈ (fill_all_nan df0).rows, ∀ c ∈ row.cells, c = Cell.nan)
          ∧ ∀ tf ∈ (collect (run_pool remote lib source s e check_db filter_data tickers st).1).failed,
              dict_get m tf = some (some (fill_all_nan df0)) := by
  obtain ⟨m, p0, df0, h1, h2, h3, h4, h5, h6, h7, h8⟩ :=
    mult_mixed_spec remote lib tickers source s e check_db filter_data st hnd hp hf
  exact ⟨m, h1, h5, h6, p0, df0, h2, h7, fill_all_nan_dates df0, fill_all_nan_cols df0,
    fill_all_nan_cells df0, h8⟩

/-- C5 witness: the batch ["A", "B"] where "A" succeeds from cache and "B"
fails everywhere. -/
theorem c5_batch_partial_failure_witness :
    ∃ m : List (String × Option DataFrame),
      (mult_tickers_get_data batch_remote "pytech.bars" ["A", "B"] "google" 4802 4834 true true batch_st).1
          = Except.ok m
      ∧ (m.map Prod.fst).Perm ["A", "B"]
      ∧ (m.map Prod.fst).Nodup
      ∧ ∃ p0 df0,
          (collect (run_pool batch_remote "pytech.bars" "google" 4802 4834 true true ["A", "B"] batch_st).1).passed.head?
              = some p0
          ∧ dict_get m p0 = some (some df0)
          ∧ datesOf (fill_all_nan df0) = datesOf df0
          ∧ (fill_all_nan df0).cols = df0.cols
          ∧ (∀ row ∈ (fill_all_nan df0).rows, ∀ c ∈ row.cells, c = Cell.nan)
          ∧ ∀ tf ∈ (collect (run_pool batch_remote "pytech.bars" "google" 4802 4834 true true ["A", "B"] batch_st).1).failed,
              dict_get m tf = some (some (fill_all_nan df0)) :=
  c5_batch_partial_failure batch_remote "pytech.bars" ["A", "B"] "google" 4802 4834 true true
    batch_st (by decide) (by decide) (by decide)

/-- C10: in a mixed-outcome batch over distinct tickers the placeholder is
computed once — `stocks[passed[0]]` NaN-filled — and that same value is
assigned to every failed ticker, so all failed entries are equal to one
another and share the date index and columns of the first passed ticker's
result. -/
theorem c10_placeholder_from_first_passed
    (remote : Remote) (lib : String) (tickers : List String) (source : String)
    (s e : Nat) (check_db filter_data : Bool) (st : St)
    (hnd : tickers.Nodup)
    (hp : (collect (run_pool remote lib source s e check_db filter_data tickers st).1).passed ≠ [])
    (hf : (collect (run_pool remote lib source s e check_db filter_data tickers st).1).failed ≠ []) :
    ∃ (m : List (String × Option DataFrame)) (p0 : String) (df0 : DataFrame),
      (mult_tickers_get_data remote lib tickers source s e check_db filter_data st).1
          = Except.ok m
      ∧ (collect (run_pool remote lib source s e check_db filter_data tickers st).1).passed.head?
          = some p0
      ∧ dict_get ((collect (run_pool remote lib source s e check_db filter_data tickers st).1).stocks) p0
          = some (some df0)
      ∧ (∀ tf ∈ (collect (run_pool remote lib source s e check_db filter_data tickers st).1).failed,
          dict_get m tf
            = some (((dict_get ((collect (run_pool remote lib source s e check_db filter_data tickers st).1).stocks) p0).join).map fill_all_nan))
      ∧ (∀ t1 ∈ (collect (run_pool remote lib source s e check_db filter_data tickers st).1).failed,
          ∀ t2 ∈ (collect (run_pool remote lib source s e check_db filter_data tickers st).1).failed,
            dict_get m t1 = dict_get m t2)
      ∧ datesOf (fill_all_nan df0) = datesOf df0
      ∧ (fill_all_nan df0).cols = df0.cols := by
  obtain ⟨m, p0, df0, h1, h2, h3, h4, h5, h6, h7, h8⟩ :=
    mult_mixed_spec remote lib tickers source s e check_db filter_data st hnd hp hf
  refine ⟨m, p0, df0, h1, h2, h3, ?_, ?_, fill_all_nan_dates df0, fill_all_nan_cols df0⟩
  · intro tf htf
    rw [h3]
    exact h8 tf htf
  · intro t1 ht1 t2 ht2
    rw [h8 t1 ht1, h8 t2 ht2]

/-- C10 witness: the batch ["A", "B"] again; "B"'s entry is the NaN-fill of
"A"'s series. -/
theorem c10_placeholder_from_first_passed_witness :
    ∃ (m : List (String × Option DataFrame)) (p0 : String) (df0 : DataFrame),
      (mult_tickers_get_data batch_remote "pytech.bars" ["A", "B"] "google" 4802 4834 true true batch_st).1
          = Except.ok m
      ∧ (collect (run_pool batch_remote "pytech.bars" "google" 4802 4834 true true ["A", "B"] batch_st).1).passed.head?
          = some p0
      ∧ dict_get ((collect (run_pool batch_remote "pytech.bars" "google" 4802 4834 true true ["A", "B"] batch_st).1).stocks) p0
          = some (some df0)
      ∧ (∀ tf ∈ (collect (run_pool batch_remote "pytech.bars" "google" 4802 4834 true true ["A", "B"] batch_st).1).failed,
          dict_get m tf
            = some (((dict_get ((collect (run_pool batch_remote "pytech.bars" "google" 4802 4834 true true ["A", "B"] batch_st).1).stocks) p0).join).map fill_all_nan))
      ∧ (∀ t1 ∈ (collect (run_pool batch_remote "pytech.bars" "google" 4802 4834 true true ["A", "B"] batch_st).1).failed,
          ∀ t2 ∈ (collect (run_pool batch_remote "pytech.bars" "google" 4802 4834 true true ["A", "B"] batch_st).1).failed,
            dict_get m t1 = dict_get m t2)
      ∧ datesOf (fill_all_nan df0) = datesOf df0
      ∧ (fill_all_nan df0).cols = df0.cols :=
  c10_placeholder_from_first_passed batch_remote "pytech.bars" ["A", "B"] "google" 4802 4834
    true true batch_st (by decide) (by decide) (by decide)

/-- Helper: membership in `trading_days`. -/
theorem mem_trading_days {x a b : Nat} :
    x ∈ trading_days a b ↔ a ≤ x ∧ x ≤ b ∧ is_trade_day x = true := by
  unfold trading_days
  rw [List.mem_filter, List.mem_range'_1]
  constructor
  · rintro ⟨⟨h1, h2⟩, h3⟩
    exact ⟨h1, by omega, h3⟩
  · rintro ⟨h1, h2, h3⟩
    exact ⟨⟨h1, by omega⟩, h3⟩

/-- Helper: `trading_days` has no duplicates. -/
theorem trading_days_nodup (a b : Nat) : (trading_days a b).Nodup :=
  (List.nodup_range' a (b + 1 - a)).filter _

/-- Helper: occurrence count in `trading_days` is an indicator. -/
theorem trading_days_count (a b x : Nat) :
    (trading_days a b).count x
      = if a ≤ x ∧ x ≤ b ∧ is_trade_day x = true then 1 else 0 := by
  by_cases h : a ≤ x ∧ x ≤ b ∧ is_trade_day x = true
  · rw [if_pos h]
    exact List.count_eq_one_of_mem (trading_days_nodup a b) (mem_trading_days.2 h)
  · rw [if_neg h]
    exact List.count_eq_zero_of_not_mem (fun hc => h (mem_trading_days.1 hc))

/-- Helper: `trading_days` starting at a trading day begins with it. -/
theorem trading_days_cons {a b : Nat} (ha : is_trade_day a = true) (hab : a ≤ b) :
    trading_days a b = a :: trading_days (a + 1) b := by
  unfold trading_days
  have h1 : b + 1 - a = (b - a) + 1 := by omega
  have h2 : b + 1 - (a + 1) = b - a := by omega
  rw [h1, h2, List.range'_succ, List.filter_cons_of_pos ha]

/-- Helper: range-restricting a trading-day list yields the trading days
of the intersection. -/
theorem trading_days_filter_range {A B s u : Nat} (hA : A ≤ s) (hB : u ≤ B) :
    (trading_days A B).filter (fun d => decide (s ≤ d) && decide (d ≤ u))
      = trading_days s u := by
  unfold trading_days
  rw [List.filter_filter]
  by_cases hsu : s ≤ u
  · have e1 : List.range' s (u + 1 - s) ++ List.range' (u + 1) (B - u)
        = List.range' s (B + 1 - s) := by
      have h0 := List.range'_append_1 s (u + 1 - s) (B - u)
      rw [show s + (u + 1 - s) = u + 1 by omega] at h0
      rw [show B - u + (u + 1 - s) = B + 1 - s by omega] at h0
      exact h0
    have e2 : List.range' A (s - A) ++ List.range' s (B + 1 - s)
        = List.range' A (B + 1 - A) := by
      have h0 := List.range'_append_1 A (s - A) (B + 1 - s)
      rw [show A + (s - A) = s by omega] at h0
      rw [show B + 1 - s + (s - A) = B + 1 - A by omega] at h0
      exact h0
    have hsplit : List.range' A (B + 1 - A)
        = List.range' A (s - A) ++ List.range' s (u + 1 - s) ++ List.range' (u + 1) (B - u) := by
      rw [List.append_assoc, e1, e2]
    rw [hsplit, List.filter_append, List.filter_append]
    have hnil1 : (List.range' A (s - A)).filter
        (fun a => decide (s ≤ a) && decide (a ≤ u) && is_trade_day a) = [] := by
      rw [List.filter_eq_nil_iff]
      intro x hx
      rw [List.mem_range'_1] at hx
      simp only [Bool.and_eq_true, decide_eq_true_eq]
      rintro ⟨⟨h1, -⟩, -⟩
      omega
    have hnil2 : (List.range' (u + 1) (B - u)).filter
        (fun a => decide (s ≤ a) && decide (a ≤ u) && is_trade_day a) = [] := by
      rw [List.filter_eq_nil_iff]
      intro x hx
      rw [List.mem_range'_1] at hx
      simp only [Bool.and_eq_true, decide_eq_true_eq]
      rintro ⟨⟨-, h2⟩, -⟩
      omega
    rw [hnil1, hnil2, List.append_nil, List.nil_append]
    apply List.filter_congr
    intro x hx
    rw [List.mem_range'_1] at hx
    have h1 : decide (s ≤ x) = true := decide_eq_true (by omega)
    have h2 : decide (x ≤ u) = true := decide_eq_true (by omega)
    rw [h1, h2]
    simp
  · have h1 : u + 1 - s = 0 := by omega
    rw [h1]
    simp only [List.range'_zero, List.filter_nil]
    rw [List.filter_eq_nil_iff]
    intro x hx
    rw [List.mem_range'_1] at hx
    simp only [Bool.and_eq_true, decide_eq_true_eq]
    rintro ⟨⟨hxs, hxu⟩, -⟩
    omega

/-- Helper: range restriction filters the date index. -/
theorem datesOf_restrict (df : DataFrame) (s e : Nat) :
    datesOf (restrict_rows df s e)
      = (datesOf df).filter (fun d => decide (s ≤ d) && decide (d ≤ e)) := by
  unfold datesOf restrict_rows
  simp only
  rw [List.filter_map]
  rfl

/-- Helper: column renaming keeps the date index. -/
theorem datesOf_rename (df : DataFrame) : datesOf (rename_bar_cols df) = datesOf df := rfl

/-- Helper: attaching the ticker column keeps the date index. -/
theorem datesOf_set_ticker (t : String) (df : DataFrame) :
    datesOf (set_ticker_col t df) = datesOf df := by
  unfold datesOf set_ticker_col
  simp [List.map_map, Function.comp]

/-- Helper: a frame with dates is nonempty. -/
theorem empty_false_of_dates {df : DataFrame} (h : datesOf df ≠ []) : df.empty = false := by
  unfold DataFrame.empty
  cases hr : df.rows with
  | nil => exact absurd (by simp [datesOf, hr]) h
  | cons r rs => simp

/-- Helper: folding `min` from a lower bound of the list returns it. -/
theorem foldl_min_const : ∀ (l : List Nat) (a : Nat), (∀ x ∈ l, a ≤ x) →
    l.foldl Nat.min a = a := by
  intro l
  induction l with
  | nil => intro a _; rfl
  | cons x xs ih =>
    intro a h
    have hax : Nat.min a x = a := Nat.min_eq_left (h x (by simp))
    rw [List.foldl_cons, hax]
    exact ih a (fun y hy => h y (by simp [hy]))

/-- Helper: folding `max` returns an attained upper bound. -/
theorem foldl_max_attained : ∀ (l : List Nat) (a c : Nat), (∀ x ∈ l, x ≤ c) → a ≤ c →
    (c = a ∨ c ∈ l) → l.foldl Nat.max a = c := by
  intro l
  induction l with
  | nil =>
    intro a c _ _ hmem
    rcases hmem with rfl | hmem
    · rfl
    · simp at hmem
  | cons x xs ih =>
    intro a c hub hac hmem
    rw [List.foldl_cons]
    have hxc : x ≤ c := hub x (by simp)
    have hub' : ∀ y ∈ xs, y ≤ c := fun y hy => hub y (by simp [hy])
    rcases hmem with rfl | hmem
    · have hm : Nat.max c x = c := Nat.max_eq_left hxc
      rw [hm]
      exact ih _ _ hub' (Nat.le_refl _) (Or.inl rfl)
    · rcases List.mem_cons.1 hmem with rfl | hmem
      · have hm : Nat.max a c = c := Nat.max_eq_right hac
        rw [hm]
        exact ih _ _ hub' (Nat.le_refl _) (Or.inl rfl)
      · exact ih (Nat.max a x) c hub' (Nat.max_le.2 ⟨hac, hxc⟩) (Or.inr hmem)

/-- Helper: `df.index.min()` of a trading-day-indexed frame is its lower
bound. -/
theorem min_date_of_td {df : DataFrame} {cs ce : Nat} (h : datesOf df = trading_days cs ce)
    (hcs : is_trade_day cs = true) (hle : cs ≤ ce) : min_date df = cs := by
  unfold min_date
  rw [h, trading_days_cons hcs hle]
  exact foldl_min_const _ cs (fun x hx => by
    have := mem_trading_days.1 hx
    omega)

/-- Helper: `df.index.max()` of a trading-day-indexed frame is its upper
bound. -/
theorem max_date_of_td {df : DataFrame} {cs ce : Nat} (h : datesOf df = trading_days cs ce)
    (hcs : is_trade_day cs = true) (hce : is_trade_day ce = true) (hle : cs ≤ ce) :
    max_date df = ce := by
  unfold max_date
  rw [h, trading_days_cons hcs hle]
  apply foldl_max_attained _ cs ce
  · intro x hx
    have := mem_trading_days.1 hx
    omega
  · exact hle
  · by_cases hcc : cs = ce
    · exact Or.inl hcc.symm
    · exact Or.inr (mem_trading_days.2 ⟨by omega, by omega, hce⟩)

/-- Helper: the previous business day is earlier. -/
theorem prev_bday_lt {c : Nat} (h : 3 ≤ c) : prev_bday c < c := by
  unfold prev_bday
  split
  · omega
  · split
    · omega
    · omega

/-- Helper: for a trading day `x`, lying at or before `prev_bday c` is
lying strictly before `c` — no trading day falls in between. -/
theorem le_prev_bday_iff {x c : Nat} (hx : is_trade_day x = true)
    (h7 : 7 ≤ c) : x ≤ prev_bday c ↔ x < c := by
  simp only [is_trade_day, decide_eq_true_eq] at hx
  unfold prev_bday
  split
  · omega
  · split
    · omega
    · omega

/-- Helper: a `_from_web` call whose provider holds data in range returns
the normalized restricted frame. -/
theorem from_web_success (remote : Remote) (lib t source : String) (a b : Nat) (st : St)
    (dfR : DataFrame) (hremote : dict_get remote t = some (RemoteEntry.avail dfR))
    (hne : (restrict_rows dfR a b).empty = false) :
    (from_web remote lib t source a b st).1
      = ⟨lib, t, some (set_ticker_col t (rename_bar_cols (restrict_rows dfR a b))), true⟩ := by
  simp [from_web, data_reader, hremote, hne]

/-- Helper: when the cache hit leaves both edges short (on trading-day
endpoints), the call returns the concatenation `[cached, upper, lower]` of
the cached restriction and the two backfill fetches. -/
theorem single_both_edges (remote : Remote) (lib t source : String) (s e : Nat) (st : St)
    (dfC : DataFrame)
    (hcache : dict_get st.cache t = some (CacheEntry.stored dfC))
    (hne : (restrict_rows dfC s e).empty = false)
    (hlow : (decide (min_date (restrict_rows dfC s e) > s) && is_trade_day s) = true)
    (hup : (decide (max_date (restrict_rows dfC s e) < e) && is_trade_day e) = true) :
    (single_get_data remote lib t source s e true true st).1
      = ⟨lib, t, some (concat_dfs
          (from_web remote lib t source s (prev_bday (min_date (restrict_rows dfC s e))) st).1.df
          (from_web remote lib t source (max_date (restrict_rows dfC s e)) e
            (from_web remote lib t source s
              (prev_bday (min_date (restrict_rows dfC s e))) st).2).1.df
          (restrict_rows dfC s e)), true⟩ := by
  simp only [single_get_data, from_db, hcache, hne, hlow, hup, if_true, Bool.false_eq_true,
    if_false]

/-- Helper: occurrence counts in the merged date list
`[cached, upper, lower]`: the cached end date `ce` occurs twice — the upper
fetch starts at `ce` inclusively — and every other trading day of the
requested range occurs once. -/
theorem count_merged (s e cs ce x : Nat)
    (htce : is_trade_day ce = true)
    (h7 : 7 ≤ s) (h1 : s < cs) (h2 : cs ≤ ce) (h3 : ce < e) :
    (trading_days cs ce ++ trading_days ce e ++ trading_days s (prev_bday cs)).count x
      = if x = ce then 2 else if s ≤ x ∧ x ≤ e ∧ is_trade_day x = true then 1 else 0 := by
  rw [List.count_append, List.count_append, trading_days_count, trading_days_count,
    trading_days_count]
  by_cases htx : is_trade_day x = true
  · have hpb : x ≤ prev_bday cs ↔ x < cs := @le_prev_bday_iff x cs htx (by omega)
    simp only [htx, and_true, hpb]
    split_ifs <;> omega
  · have hxce : x ≠ ce := fun hxe => htx (hxe ▸ htce)
    simp [htx, hxce]

/-- C2 amended: with the cached series holding exactly the trading days of
`[cs, ce]`, strictly inside the requested `[s, e]` whose endpoints are
trading days, and a provider holding one bar per trading day over a
covering range, the merged result covers every trading day of `[s, e]` —
but the cached end date `ce` appears exactly TWICE (the upper backfill
`[db_end, end]` re-fetches the bar at `db_end`), and every other trading
day exactly once; the claim's "exactly one bar per trading day with no
duplicate dates" holds for every date except `ce`. -/
theorem c2_amended_edge_backfill
    (remote : Remote) (lib t source : String) (s e cs ce A B : Nat) (st : St)
    (dfC dfR : DataFrame)
    (hcache : dict_get st.cache t = some (CacheEntry.stored dfC))
    (hCdates : datesOf dfC = trading_days cs ce)
    (hremote : dict_get remote t = some (RemoteEntry.avail dfR))
    (hRdates : datesOf dfR = trading_days A B)
    (hA : A ≤ s) (hB : e ≤ B)
    (hts : is_trade_day s = true) (hte : is_trade_day e = true)
    (htcs : is_trade_day cs = true) (htce : is_trade_day ce = true)
    (h7 : 7 ≤ s) (h1 : s < cs) (h2 : cs ≤ ce) (h3 : ce < e) :
    (single_get_data remote lib t source s e true true st).1.successful = true
    ∧ ∃ d, (single_get_data remote lib t source s e true true st).1.df = some d
        ∧ ∀ x, (datesOf d).count x
            = if x = ce then 2
              else if s ≤ x ∧ x ≤ e ∧ is_trade_day x = true then 1 else 0 := by
  have hrestC : datesOf (restrict_rows dfC s e) = trading_days cs ce := by
    rw [datesOf_restrict, hCdates]
    apply List.filter_eq_self.2
    intro d hd
    have hmem := mem_trading_days.1 hd
    simp only [Bool.and_eq_true, decide_eq_true_eq]
    exact ⟨by omega, by omega⟩
  have hneC : (restrict_rows dfC s e).empty = false := empty_false_of_dates (by
    rw [hrestC, trading_days_cons htcs h2]
    simp)
  have hmin : min_date (restrict_rows dfC s e) = cs := min_date_of_td hrestC htcs h2
  have hmax : max_date (restrict_rows dfC s e) = ce := max_date_of_td hrestC htcs htce h2
  have hlow : (decide (min_date (restrict_rows dfC s e) > s) && is_trade_day s) = true := by
    rw [hmin, hts]
    simp [h1]
  have hup : (decide (max_date (restrict_rows dfC s e) < e) && is_trade_day e) = true := by
    rw [hmax, hte]
    simp [h3]
  have hsingle := single_both_edges remote lib t source s e st dfC hcache hneC hlow hup
  rw [hmin, hmax] at hsingle
  have hspb : s ≤ prev_bday cs := (@le_prev_bday_iff s cs hts (by omega)).2 h1
  have hlowdates : datesOf (restrict_rows dfR s (prev_bday cs))
      = trading_days s (prev_bday cs) := by
    rw [datesOf_restrict, hRdates]
    exact trading_days_filter_range hA (by
      have := prev_bday_lt (show 3 ≤ cs by omega)
      omega)
  have hlowne : (restrict_rows dfR s (prev_bday cs)).empty = false :=
    empty_false_of_dates (by
      rw [hlowdates, trading_days_cons hts hspb]
      simp)
  have hlowdf := from_web_success remote lib t source s (prev_bday cs) st dfR hremote hlowne
  have hupdates : datesOf (restrict_rows dfR ce e) = trading_days ce e := by
    rw [datesOf_restrict, hRdates]
    exact trading_days_filter_range (by omega) hB
  have hupne : (restrict_rows dfR ce e).empty = false :=
    empty_false_of_dates (by
      rw [hupdates, trading_days_cons htce (by omega)]
      simp)
  have hupdf := from_web_success remote lib t source ce e
    (from_web remote lib t source s (prev_bday cs) st).2 dfR hremote hupne
  rw [hlowdf, hupdf] at hsingle
  simp only at hsingle
  rw [hsingle]
  refine ⟨rfl, _, rfl, ?_⟩
  intro x
  have hdates : datesOf (concat_dfs
      (some (set_ticker_col t (rename_bar_cols (restrict_rows dfR s (prev_bday cs)))))
      (some (set_ticker_col t (rename_bar_cols (restrict_rows dfR ce e))))
      (restrict_rows dfC s e))
      = datesOf (restrict_rows dfC s e)
        ++ datesOf (set_ticker_col t (rename_bar_cols (restrict_rows dfR ce e)))
        ++ datesOf (set_ticker_col t (rename_bar_cols (restrict_rows dfR s (prev_bday cs)))) := by
    simp [concat_dfs, datesOf]
  rw [hdates, datesOf_set_ticker, datesOf_set_ticker, datesOf_rename, datesOf_rename,
    hrestC, hupdates, hlowdates]
  exact count_merged s e cs ce x htce h7 h1 h2 h3

/-- C2 amended witness: the spec's P3 scenario (days 4802..4834 with cache
4811..4830), evaluated concretely. -/
theorem c2_amended_edge_backfill_witness :
    (single_get_data edge_remote "pytech.bars" "AAPL" "google" 4802 4834 true true edge_st).1.successful = true
    ∧ ∃ d, (single_get_data edge_remote "pytech.bars" "AAPL" "google" 4802 4834 true true edge_st).1.df = some d
        ∧ ∀ x, (datesOf d).count x
            = if x = 4830 then 2
              else if 4802 ≤ x ∧ x ≤ 4834 ∧ is_trade_day x = true then 1 else 0 :=
  c2_amended_edge_backfill edge_remote "pytech.bars" "AAPL" "google" 4802 4834 4811 4830
    4790 4840 edge_st (sample_cached "AAPL" 4811 4830) (sample_history 4790 4840)
    (by decide) (by decide) (by decide) (by decide) (by decide) (by decide) (by decide)
    (by decide) (by decide) (by decide) (by decide) (by decide) (by decide) (by decide)

/-- C3 amended: the strictly-increasing date invariant holds for every
successful result produced WITHOUT edge backfill — a fully covering cache
hit returns the cached restriction (sorted whenever the store's series is),
and a full-range remote fetch returns the provider's restriction (sorted
whenever the provider's series is); merged backfill results are the
unsorted concatenation `[cached, upper, lower]` (see the counterexample)
and are excluded. -/
theorem c3_amended_sorted_without_backfill :
    (∀ (remote : Remote) (lib t source : String) (s e : Nat) (st : St) (dfC : DataFrame),
      dict_get st.cache t = some (CacheEntry.stored dfC) →
      (restrict_rows dfC s e).empty = false →
      (decide (min_date (restrict_rows dfC s e) > s) && is_trade_day s) = false →
      (decide (max_date (restrict_rows dfC s e) < e) && is_trade_day e) = false →
      strict_incr (datesOf (restrict_rows dfC s e)) = true →
      ∃ d, (single_get_data remote lib t source s e true true st).1.df = some d
        ∧ (single_get_data remote lib t source s e true true st).1.successful = true
        ∧ strict_incr (datesOf d) = true)
    ∧ (∀ (remote : Remote) (lib t source : String) (s e : Nat) (filter_data : Bool)
        (st : St) (dfR : DataFrame),
      dict_get remote t = some (RemoteEntry.avail dfR) →
      (restrict_rows dfR s e).empty = false →
      strict_incr (datesOf (restrict_rows dfR s e)) = true →
      ∃ d, (single_get_data remote lib t source s e false filter_data st).1.df = some d
        ∧ (single_get_data remote lib t source s e false filter_data st).1.successful = true
        ∧ strict_incr (datesOf d) = true) := by
  constructor
  · intro remote lib t source s e st dfC hcache hne hlow hup hsorted
    have hres : single_get_data remote lib t source s e true true st
        = (⟨lib, t, some (restrict_rows dfC s e), true⟩, st) := by
      simp only [single_get_data, from_db, hcache, hne, hlow, hup, if_true, Bool.false_eq_true,
        if_false, concat_dfs]
    rw [hres]
    exact ⟨restrict_rows dfC s e, rfl, rfl, hsorted⟩
  · intro remote lib t source s e filter_data st dfR hremote hne hsorted
    have hdf := from_web_success remote lib t source s e st dfR hremote hne
    have hres : (single_get_data remote lib t source s e false filter_data st).1
        = (from_web remote lib t source s e st).1 := by
      simp only [single_get_data, Bool.false_eq_true, if_false]
    rw [hres, hdf]
    refine ⟨set_ticker_col t (rename_bar_cols (restrict_rows dfR s e)), rfl, rfl, ?_⟩
    rw [datesOf_set_ticker, datesOf_rename]
    exact hsorted

/-- C3 amended witness: the covering cache hit and a pure web fetch, both
with strictly increasing dates. -/
theorem c3_amended_sorted_without_backfill_witness :
    (∃ d, (single_get_data edge_remote "pytech.bars" "AAPL" "google" 4802 4834 true true cover_st).1.df = some d
      ∧ (single_get_data edge_remote "pytech.bars" "AAPL" "google" 4802 4834 true true cover_st).1.successful = true
      ∧ strict_incr (datesOf d) = true)
    ∧ (∃ d, (single_get_data edge_remote "pytech.bars" "AAPL" "google" 4802 4834 false true ⟨[], []⟩).1.df = some d
      ∧ (single_get_data edge_remote "pytech.bars" "AAPL" "google" 4802 4834 false true ⟨[], []⟩).1.successful = true
      ∧ strict_incr (datesOf d) = true) :=
  ⟨c3_amended_sorted_without_backfill.1 edge_remote "pytech.bars" "AAPL" "google" 4802 4834
      cover_st (sample_cached "AAPL" 4800 4836) (by decide) (by decide) (by decide) (by decide)
      (by decide),
   c3_amended_sorted_without_backfill.2 edge_remote "pytech.bars" "AAPL" "google" 4802 4834
      true ⟨[], []⟩ (sample_history 4790 4840) (by decide) (by decide) (by decide)⟩
